import Mathlib

set_option maxHeartbeats 1000000

/-!
Verification development for a small interactive shell written in Rust:
a tokenizer with quote/escape state (src/parser.rs, `tokenize` and
`handle_escape`), a trailing-redirect extractor (`parse_redirect`), the
builtin commands (src/builtins/mod.rs) and the dispatch loop
(src/shell.rs).  Machine integers are modelled as `Nat`/`Int` with the
explicit range checks Rust's `str::parse` performs; external effects
(environment variables, the filesystem, process spawning) are explicit
parameters.
-/

deriving instance DecidableEq for Except

/-- The backslash character (escape introducer in the tokenizer). -/
def bsChar : Char := Char.ofNat 92

/-- The double-quote character. -/
def dqChar : Char := Char.ofNat 34

/-- The single-quote character. -/
def sqChar : Char := Char.ofNat 39

/-- The backtick character (member of the double-quote escape class). -/
def btChar : Char := Char.ofNat 96

/-- The newline character (member of the double-quote escape class). -/
def nlChar : Char := Char.ofNat 10

/-- Rust's `char::is_whitespace`: the Unicode `White_Space` property,
written out as the finite set of code points that carry it. -/
def rust_is_whitespace (c : Char) : Bool :=
  let n := c.toNat
  decide ((9 ≤ n ∧ n ≤ 13) ∨ n = 32 ∨ n = 133 ∨ n = 160 ∨ n = 5760 ∨
    (8192 ≤ n ∧ n ≤ 8202) ∨ n = 8232 ∨ n = 8233 ∨ n = 8239 ∨ n = 8287 ∨ n = 12288)

/-- The numeric value of a decimal digit string, most significant first. -/
def digitsToNat (l : List Char) : Nat :=
  l.foldl (fun a c => 10 * a + (c.toNat - 48)) 0

/-- Rust's `str::parse::<u32>`: an optional leading plus sign, then at
least one ASCII digit, and the value must fit in 32 unsigned bits
(otherwise the parse errors, which `parse_redirect` turns into its
"invalid file descriptor" message). -/
def parse_u32 (l : List Char) : Option Nat :=
  let ds := if l.head? = some '+' then l.tail else l
  if ds ≠ [] ∧ ds.all Char.isDigit ∧ digitsToNat ds < 4294967296 then
    some (digitsToNat ds)
  else none

/-- Rust's `str::parse::<i32>`: an optional sign, at least one ASCII
digit, and the value must fit in a signed 32-bit integer. -/
def parse_i32 (s : String) : Option Int :=
  match s.data with
  | '+' :: ds =>
    if ds ≠ [] ∧ ds.all Char.isDigit ∧ digitsToNat ds ≤ 2147483647 then
      some (digitsToNat ds : Int)
    else none
  | '-' :: ds =>
    if ds ≠ [] ∧ ds.all Char.isDigit ∧ digitsToNat ds ≤ 2147483648 then
      some (-(digitsToNat ds : Int))
    else none
  | ds =>
    if ds ≠ [] ∧ ds.all Char.isDigit ∧ digitsToNat ds ≤ 2147483647 then
      some (digitsToNat ds : Int)
    else none

/-- `RedirectType` from src/parser.rs. -/
inductive RedirectType where
  | CREATE
  | APPEND
deriving DecidableEq

/-- `Redirect` from src/parser.rs: target file descriptor, destination
path, and mode. -/
structure Redirect where
  fd : Nat
  target : String
  redirect_type : RedirectType
deriving DecidableEq

/-- The mutable state of one pass of `tokenize` (src/parser.rs lines
17-21): the two quote flags, the token being accumulated, and the tokens
already produced. -/
structure ScanState where
  is_in_single_quotes : Bool
  is_in_double_quotes : Bool
  current_token : String
  tokens : List String
deriving DecidableEq

/-- The `Some(next_char)` branch of `handle_escape` (src/parser.rs lines
67-83): inside double quotes only the five characters of the escape
class are escaped and any other character keeps its backslash; outside
quotes the next character is appended literally. -/
def handle_escape_char (current_token : String) (next_char : Char)
    (is_in_double_quotes : Bool) : String :=
  if is_in_double_quotes then
    if next_char = dqChar ∨ next_char = '$' ∨ next_char = bsChar ∨
        next_char = btChar ∨ next_char = nlChar then
      current_token.push next_char
    else
      (current_token.push bsChar).push next_char
  else
    current_token.push next_char

/-- One non-escape iteration of the `tokenize` scan loop (src/parser.rs
lines 27-52): quote characters of the inactive kind are literals, quote
characters of their own kind toggle their flag, unquoted whitespace
flushes a non-empty current token, everything else is appended. -/
def plain_step (s : ScanState) (ch : Char) : ScanState :=
  if ch = dqChar then
    if s.is_in_single_quotes then
      { s with current_token := s.current_token.push ch }
    else
      { s with is_in_double_quotes := !s.is_in_double_quotes }
  else if ch = sqChar then
    if s.is_in_double_quotes then
      { s with current_token := s.current_token.push ch }
    else
      { s with is_in_single_quotes := !s.is_in_single_quotes }
  else if rust_is_whitespace ch then
    if s.is_in_single_quotes ∨ s.is_in_double_quotes then
      { s with current_token := s.current_token.push ch }
    else if s.current_token.isEmpty then s
    else { s with current_token := "", tokens := s.tokens ++ [s.current_token] }
  else
    { s with current_token := s.current_token.push ch }

/-- The scan loop of `tokenize` (src/parser.rs lines 22-53).  A
backslash outside single quotes consumes the peeked character via
`handle_escape_char`; a backslash that ends the input is appended
verbatim; every other character goes through `plain_step`. -/
def tokenize_run : List Char → ScanState → ScanState
  | [], s => s
  | ch :: rest, s =>
    if ch = bsChar ∧ s.is_in_single_quotes = false then
      match rest with
      | [] => { s with current_token := s.current_token.push bsChar }
      | next_char :: rest2 =>
        tokenize_run rest2
          { s with current_token :=
              handle_escape_char s.current_token next_char s.is_in_double_quotes }
    else
      tokenize_run rest (plain_step s ch)

/-- The sequence of states the scan loop passes through, in order,
starting with the given state. -/
def tokenize_trace : List Char → ScanState → List ScanState
  | [], s => [s]
  | ch :: rest, s =>
    if ch = bsChar ∧ s.is_in_single_quotes = false then
      match rest with
      | [] => [s, { s with current_token := s.current_token.push bsChar }]
      | next_char :: rest2 =>
        s :: tokenize_trace rest2
          { s with current_token :=
              handle_escape_char s.current_token next_char s.is_in_double_quotes }
    else
      s :: tokenize_trace rest (plain_step s ch)

/-- The post-loop flush of `tokenize` (src/parser.rs lines 54-56): a
non-empty pending token is appended to the output sequence. -/
def flush_tokens (s : ScanState) : List String :=
  if s.current_token.isEmpty then s.tokens else s.tokens ++ [s.current_token]

/-- The word tokens the character-scanning phase of `tokenize` produces,
before redirect extraction. -/
def scan_tokens (input : String) : List String :=
  flush_tokens (tokenize_run input.data (ScanState.mk false false "" []))

/-- `parse_redirect` from src/parser.rs (lines 89-134): when at least
two tokens exist, split the second-to-last token at its first
non-ASCII-digit character; if the remainder is the operator `>` or `>>`,
parse the digit part as a u32 file descriptor (defaulting to 1 when
absent), pop the filename and the operator, and return the descriptor.
Otherwise return the tokens unchanged and no descriptor. -/
def parse_redirect (tokens : List String) :
    Except String (List String × Option Redirect) :=
  if tokens.length < 2 then Except.ok (tokens, none)
  else
    let op_token := tokens.getD (tokens.length - 2) ""
    let fd_chars := op_token.data.takeWhile Char.isDigit
    let op_chars := op_token.data.dropWhile Char.isDigit
    let redirect_type_optional : Option RedirectType :=
      if op_chars = ['>', '>'] then some RedirectType.APPEND
      else if op_chars = ['>'] then some RedirectType.CREATE
      else none
    match redirect_type_optional with
    | none => Except.ok (tokens, none)
    | some rt =>
      let fd_optional := if fd_chars = [] then some 1 else parse_u32 fd_chars
      match fd_optional with
      | none => Except.error ("invalid file descriptor: " ++ String.mk fd_chars)
      | some fd =>
        Except.ok (tokens.dropLast.dropLast,
          some (Redirect.mk fd (tokens.getLastD "") rt))

/-- `tokenize` from src/parser.rs (lines 16-60): scan the characters
into word tokens, then run redirect extraction on the result. -/
def tokenize (input : String) : Except String (List String × Option Redirect) :=
  parse_redirect (scan_tokens input)

/-! ## Spec-side description of tokenization (for the refinement claim)

The spec's testable property reads: "For all inputs with balanced,
non-nested single/double quotes, tokenizing and then rejoining tokens
with single spaces reconstructs the original whitespace-normalized
content with quote delimiters stripped."  The following definitions
follow those words: content is split on unquoted whitespace (runs
collapse, ends trim), quote delimiters (quote characters of the active
kind) are stripped, a quote character of the inactive kind is a literal,
and nothing else — in particular no escape processing — is applied. -/

/-- One character of the spec-side description: identical to the spec's
§4.1 quote rules, with no escape clause. -/
def spec_quote_step (s : ScanState) (ch : Char) : ScanState :=
  if ch = dqChar then
    if s.is_in_single_quotes then
      { s with current_token := s.current_token.push ch }
    else
      { s with is_in_double_quotes := !s.is_in_double_quotes }
  else if ch = sqChar then
    if s.is_in_double_quotes then
      { s with current_token := s.current_token.push ch }
    else
      { s with is_in_single_quotes := !s.is_in_single_quotes }
  else if rust_is_whitespace ch then
    if s.is_in_single_quotes ∨ s.is_in_double_quotes then
      { s with current_token := s.current_token.push ch }
    else if s.current_token.isEmpty then s
    else { s with current_token := "", tokens := s.tokens ++ [s.current_token] }
  else
    { s with current_token := s.current_token.push ch }

/-- The spec-side scan: fold `spec_quote_step` over the input. -/
def spec_quote_run : List Char → ScanState → ScanState
  | [], s => s
  | ch :: rest, s => spec_quote_run rest (spec_quote_step s ch)

/-- The spec-side word list of an input line. -/
def spec_words (input : String) : List String :=
  flush_tokens (spec_quote_run input.data (ScanState.mk false false "" []))

/-- The spec-side "whitespace-normalized content with quote delimiters
stripped" of an input line. -/
def spec_normalized (input : String) : String :=
  String.intercalate " " (spec_words input)

/-- "Balanced, non-nested single/double quotes": the quote-state scan of
the input ends outside both kinds of quotes. -/
def spec_balanced (input : String) : Bool :=
  !(spec_quote_run input.data (ScanState.mk false false "" [])).is_in_single_quotes &&
    !(spec_quote_run input.data (ScanState.mk false false "" [])).is_in_double_quotes

/-! ## Claim-side helpers for the redirect-operator pattern -/

/-- The claim's pattern for a redirect operator token:
optional digits followed by the operator, which is all of the rest. -/
def redirect_shape (t : String) : Bool :=
  decide (t.data.dropWhile Char.isDigit = ['>'] ∨
    t.data.dropWhile Char.isDigit = ['>', '>'])

/-- The target file descriptor the claim reads off a redirect operator
token: the parsed digit prefix, defaulting to 1 when absent. -/
def redirect_fd_value (t : String) : Nat :=
  if t.data.takeWhile Char.isDigit = [] then 1
  else digitsToNat (t.data.takeWhile Char.isDigit)

/-- The mode the claim reads off a redirect operator token. -/
def redirect_mode (t : String) : RedirectType :=
  if t.data.dropWhile Char.isDigit = ['>', '>'] then RedirectType.APPEND
  else RedirectType.CREATE

/-- The condition under which the code's redirect extraction actually
fails: the second-to-last token is a non-empty digit run followed by the
operator, and the run's value does not fit in a u32. -/
def fd_overflow (t : String) : Bool :=
  redirect_shape t &&
    decide (t.data.takeWhile Char.isDigit ≠ [] ∧
      4294967296 ≤ digitsToNat (t.data.takeWhile Char.isDigit))

/-- The claim's description of a malformed descriptor: the token ends in
the operator and the text before the operator is not a clean digit run
(it contains a non-digit character). -/
def claim_malformed_fd (t : String) : Bool :=
  let l := t.data
  let core :=
    if l.getLast? = some '>' then
      let l1 := l.dropLast
      if l1.getLast? = some '>' then l1.dropLast else l1
    else l
  decide (l.getLast? = some '>' ∧ ¬ core.all Char.isDigit)

/-! ## Builtins (src/builtins/mod.rs)

Output sinks are modelled as the string of bytes a builtin writes to
them; `write_line` (src/utils.rs) writes the content followed by one
newline byte. -/

/-- `BuiltinFlow` from src/builtins/mod.rs. -/
inductive BuiltinFlow where
  | Continue
  | Exit (code : Int)
deriving DecidableEq

/-- `write_line` from src/utils.rs applied to an accumulating sink. -/
def write_line (sink : String) (content : String) : String :=
  sink ++ content ++ "\n"

/-- `Builtins::builtin_exit` (src/builtins/mod.rs lines 39-61): result
flow and what it writes to the diagnostic sink. -/
def builtin_exit (parts : List String) : BuiltinFlow × String :=
  match parts with
  | _ :: arg :: _ =>
    match parse_i32 arg with
    | some code => (BuiltinFlow.Exit code, "")
    | none =>
      (BuiltinFlow.Continue,
        write_line "" ("exit: " ++ arg ++ ": numeric argument required"))
  | _ => (BuiltinFlow.Exit 0, "")

/-- The tilde expansion inside `Builtins::builtin_cd` (src/builtins/mod.rs
lines 129-139).  `home` is the value of the `HOME` environment variable
when set.  Rust's `trim_start_matches` removes every leading occurrence
of its pattern, so all leading tildes (and then, of the remainder, all
leading slashes) are stripped. -/
def cd_expand (arg : String) (home : Option String) : String :=
  if arg.data.head? = some '~' then
    match home with
    | some home_dir =>
      let remainder := arg.data.dropWhile (fun c => c = '~')
      if remainder = [] then home_dir
      else home_dir ++ "/" ++ String.mk (remainder.dropWhile (fun c => c = '/'))
    | none => arg
  else arg

/-- `Builtins::builtin_cd` (src/builtins/mod.rs lines 118-149).
`dir_ok` abstracts `env::set_current_dir` (true = the directory exists
and is accessible, and the process working directory becomes it).
Returns the flow, the bytes written to the diagnostic sink, and the
working directory after the call. -/
def builtin_cd (parts : List String) (home : Option String)
    (dir_ok : String → Bool) (cwd : String) : BuiltinFlow × String × String :=
  if parts.length ≠ 2 then
    (BuiltinFlow.Continue, write_line "" "cd only accepts 1 argument", cwd)
  else
    let arg := parts.getD 1 ""
    let new_dir := cd_expand arg home
    if dir_ok new_dir then (BuiltinFlow.Continue, "", new_dir)
    else
      (BuiltinFlow.Continue,
        write_line "" (arg ++ ": No such file or directory"), cwd)

/-! ## Dispatcher (src/shell.rs lines 48-114)

One dispatch cycle after tokenization, with the external collaborators
(file opening, executable resolution, builtin behaviour) as explicit
parameters. -/

/-- What, if anything, a dispatch cycle executed. -/
inductive RanCommand where
  | noCmd
  | builtinCmd (name : String)
  | externalCmd (name : String)
deriving DecidableEq

/-- The observable outcome of one dispatch cycle: messages printed to
the terminal's diagnostic stream via `eprintln`, redirect files opened,
the command executed, the line written through the (possibly redirected)
stderr writer, and the exit status when the cycle terminates the
process. -/
structure CycleResult where
  term_diags : List String
  opened : List (String × RedirectType)
  executed : RanCommand
  stderr_line : Option String
  exits : Option Int
deriving DecidableEq

/-- The dispatcher's external collaborators. -/
structure ShellWorld where
  open_ok : String → RedirectType → Bool
  find_executable : String → Option String
  run_builtin : String → List String → BuiltinFlow

/-- The keys of the builtin registry (src/builtins/mod.rs lines 22-28). -/
def builtin_names : List String := ["exit", "echo", "type", "pwd", "cd"]

/-- `Builtins::is_builtin`. -/
def is_builtin (name : String) : Bool := builtin_names.contains name

/-- The command-running tail of the dispatch cycle (src/shell.rs lines
72-113): builtin lookup, executable resolution, external delegation. -/
def run_command (w : ShellWorld) (parts : List String)
    (opened : List (String × RedirectType)) : CycleResult :=
  let command_name := parts.getD 0 ""
  if is_builtin command_name then
    match w.run_builtin command_name parts with
    | BuiltinFlow.Exit code =>
      CycleResult.mk [] opened (RanCommand.builtinCmd command_name) none (some code)
    | BuiltinFlow.Continue =>
      CycleResult.mk [] opened (RanCommand.builtinCmd command_name) none none
  else
    match w.find_executable command_name with
    | none =>
      CycleResult.mk [] opened RanCommand.noCmd
        (some (command_name ++ ": command not found")) none
    | some _ =>
      CycleResult.mk [] opened (RanCommand.externalCmd command_name) none none

/-- One dispatch cycle from a tokenized line (src/shell.rs lines
48-114): resolve the redirect descriptor — only descriptors for file
descriptors 1 and 2 are accepted, any other target is rejected with a
diagnostic and the cycle ends — then run the command. -/
def dispatch_cycle (w : ShellWorld) (parts : List String)
    (redirect : Option Redirect) : CycleResult :=
  match redirect with
  | none => run_command w parts []
  | some spec =>
    if spec.fd = 1 then
      if w.open_ok spec.target spec.redirect_type then
        run_command w parts [(spec.target, spec.redirect_type)]
      else
        CycleResult.mk ["failed to open " ++ spec.target] [] RanCommand.noCmd none none
    else if spec.fd = 2 then
      if w.open_ok spec.target spec.redirect_type then
        run_command w parts [(spec.target, spec.redirect_type)]
      else
        CycleResult.mk ["failed to open " ++ spec.target] [] RanCommand.noCmd none none
    else
      CycleResult.mk ["redirect for fd " ++ toString spec.fd ++ " is not supported"]
        [] RanCommand.noCmd none none

/-- The input line of the quoted-operator example: echo hi, a single
redirect operator wrapped in single quotes, and a file name. -/
def quoted_redirect_line : String :=
  "echo hi " ++ String.singleton sqChar ++ ">" ++ String.singleton sqChar ++ " out.txt"

/-! ## Helper lemmas -/

/-! ## Helper lemmas -/

lemma takeWhile_digits_all (l : List Char) :
    (l.takeWhile Char.isDigit).all Char.isDigit = true := by
  induction l with
  | nil => rfl
  | cons a t ih =>
    cases hpa : Char.isDigit a with
    | false => simp [List.takeWhile_cons, hpa]
    | true => simp [List.takeWhile_cons, hpa, ih]

lemma takeWhile_digits_head (l : List Char) :
    (l.takeWhile Char.isDigit).head? ≠ some '+' := by
  cases l with
  | nil => simp [List.takeWhile]
  | cons a t =>
    cases hpa : Char.isDigit a with
    | false => simp [List.takeWhile_cons, hpa]
    | true =>
      simp only [List.takeWhile_cons, hpa, if_true, List.head?_cons, ne_eq,
        Option.some.injEq]
      intro hc
      rw [hc] at hpa
      exact absurd hpa (by decide)

lemma parse_u32_takeWhile (l : List Char) (h : l.takeWhile Char.isDigit ≠ []) :
    parse_u32 (l.takeWhile Char.isDigit) =
      if digitsToNat (l.takeWhile Char.isDigit) < 4294967296 then
        some (digitsToNat (l.takeWhile Char.isDigit))
      else none := by
  have hall := takeWhile_digits_all l
  have hhead := takeWhile_digits_head l
  unfold parse_u32
  rw [if_neg hhead]
  by_cases hov : digitsToNat (l.takeWhile Char.isDigit) < 4294967296
  · rw [if_pos ⟨h, hall, hov⟩, if_pos hov]
  · rw [if_neg (fun hc => hov hc.2.2), if_neg hov]

lemma concat_two_getD (front : List String) (op fn : String) :
    (front ++ [op, fn]).getD ((front ++ [op, fn]).length - 2) "" = op := by
  have hlen : (front ++ [op, fn]).length = front.length + 2 := by simp
  rw [hlen]
  have h2 : front.length + 2 - 2 = front.length := by omega
  rw [h2, List.getD_append_right front [op, fn] "" front.length (Nat.le_refl _)]
  simp

lemma concat_two_dropLast (front : List String) (op fn : String) :
    (front ++ [op, fn]).dropLast.dropLast = front := by
  have h : front ++ [op, fn] = (front ++ [op]) ++ [fn] := by simp
  rw [h, List.dropLast_concat, List.dropLast_concat]

lemma concat_two_getLastD (front : List String) (op fn : String) :
    (front ++ [op, fn]).getLastD "" = fn := by
  have h : front ++ [op, fn] = (front ++ [op]) ++ [fn] := by simp
  rw [h]
  simp

/-! ## C1 -/

/-- C1 (amended): for a token sequence of length at least two whose
second-to-last token matches `<optional digits><operator>` and whose
digit prefix (when present) fits in a u32, `parse_redirect` removes
exactly the last two tokens and returns the descriptor with the parsed
fd (default 1), the last token as path, and CREATE for the single
operator, APPEND for the double one; every other token sequence comes
back unchanged with no descriptor. -/
theorem parse_redirect_extracts_exactly :
    ∀ (front tokens : List String) (op fn : String),
      (redirect_shape op = true → redirect_fd_value op < 4294967296 →
        parse_redirect (front ++ [op, fn]) =
          Except.ok (front, some (Redirect.mk (redirect_fd_value op) fn (redirect_mode op)))) ∧
      (tokens.length < 2 ∨ redirect_shape (tokens.getD (tokens.length - 2) "") = false →
        parse_redirect tokens = Except.ok (tokens, none)) := by
  intro front tokens op fn
  constructor
  · intro hshape hfd
    have hlen2 : ¬((front ++ [op, fn]).length < 2) := by
      simp only [List.length_append, List.length_cons, List.length_nil]
      omega
    simp only [redirect_shape, decide_eq_true_eq] at hshape
    unfold parse_redirect
    rw [if_neg hlen2]
    dsimp only
    rw [concat_two_getD, concat_two_dropLast, concat_two_getLastD]
    rcases hshape with h | h
    · rw [h, if_neg (by decide : ¬(['>'] = ['>', '>'])), if_pos rfl]
      dsimp only
      by_cases htw : op.data.takeWhile Char.isDigit = []
      · rw [if_pos htw]
        dsimp only
        unfold redirect_fd_value redirect_mode
        rw [if_pos htw, h, if_neg (by decide : ¬(['>'] = ['>', '>']))]
      · have hval : redirect_fd_value op = digitsToNat (op.data.takeWhile Char.isDigit) := by
          unfold redirect_fd_value
          rw [if_neg htw]
        rw [hval] at hfd
        rw [if_neg htw, parse_u32_takeWhile op.data htw, if_pos hfd]
        dsimp only
        unfold redirect_mode
        rw [hval, h, if_neg (by decide : ¬(['>'] = ['>', '>']))]
    · rw [h, if_pos rfl]
      dsimp only
      by_cases htw : op.data.takeWhile Char.isDigit = []
      · rw [if_pos htw]
        dsimp only
        unfold redirect_fd_value redirect_mode
        rw [if_pos htw, h, if_pos rfl]
      · have hval : redirect_fd_value op = digitsToNat (op.data.takeWhile Char.isDigit) := by
          unfold redirect_fd_value
          rw [if_neg htw]
        rw [hval] at hfd
        rw [if_neg htw, parse_u32_takeWhile op.data htw, if_pos hfd]
        dsimp only
        unfold redirect_mode
        rw [hval, h, if_pos rfl]
  · intro h
    by_cases hlen : tokens.length < 2
    · unfold parse_redirect
      rw [if_pos hlen]
    · rcases h with h | h
      · exact absurd h hlen
      · simp only [redirect_shape, decide_eq_false_iff_not, not_or] at h
        unfold parse_redirect
        rw [if_neg hlen]
        dsimp only
        rw [if_neg h.2, if_neg h.1]

/-- C1 counterexample: the token "4294967296>" matches the claim's
pattern (a digit run before the operator), yet `parse_redirect` returns
an error rather than a descriptor, because the digit run does not fit in
a u32. -/
theorem parse_redirect_overflow_counterexample :
    redirect_shape "4294967296>" = true ∧
      parse_redirect ["x", "4294967296>", "f"] =
        Except.error "invalid file descriptor: 4294967296" := by
  constructor
  · decide
  · decide

/-- C1 witness: the amended theorem applied to the token sequence
["echo", "2>", "err.log"]. -/
theorem parse_redirect_extracts_exactly_witness :
    parse_redirect (["echo"] ++ ["2>", "err.log"]) =
      Except.ok (["echo"],
        some (Redirect.mk (redirect_fd_value "2>") "err.log" (redirect_mode "2>"))) :=
  (parse_redirect_extracts_exactly ["echo"] [] "2>" "err.log").1 (by decide) (by decide)

/-! ## C2 -/

lemma parse_redirect_error_iff (toks : List String) (e : String) :
    parse_redirect toks = Except.error e ↔
      (2 ≤ toks.length ∧
        fd_overflow (toks.getD (toks.length - 2) "") = true ∧
        e = "invalid file descriptor: " ++
          String.mk ((toks.getD (toks.length - 2) "").data.takeWhile Char.isDigit)) := by
  unfold parse_redirect
  by_cases hlen : toks.length < 2
  · rw [if_pos hlen]
    constructor
    · intro hcontra
      exact Except.noConfusion hcontra
    · rintro ⟨hge, -, -⟩
      omega
  · rw [if_neg hlen]
    dsimp only
    have hlen2 : 2 ≤ toks.length := by omega
    by_cases h2 : (toks.getD (toks.length - 2) "").data.dropWhile Char.isDigit = ['>', '>']
    · rw [h2, if_pos rfl]
      dsimp only
      by_cases htw : (toks.getD (toks.length - 2) "").data.takeWhile Char.isDigit = []
      · rw [if_pos htw]
        dsimp only
        constructor
        · intro hcontra
          exact Except.noConfusion hcontra
        · rintro ⟨-, hfo, -⟩
          unfold fd_overflow at hfo
          rw [Bool.and_eq_true, decide_eq_true_eq] at hfo
          exact (hfo.2.1 htw).elim
      · rw [if_neg htw, parse_u32_takeWhile _ htw]
        by_cases hov : digitsToNat ((toks.getD (toks.length - 2) "").data.takeWhile Char.isDigit)
            < 4294967296
        · rw [if_pos hov]
          dsimp only
          constructor
          · intro hcontra
            exact Except.noConfusion hcontra
          · rintro ⟨-, hfo, -⟩
            unfold fd_overflow at hfo
            rw [Bool.and_eq_true, decide_eq_true_eq] at hfo
            omega
        · rw [if_neg hov]
          dsimp only
          have hfo : fd_overflow (toks.getD (toks.length - 2) "") = true := by
            unfold fd_overflow
            rw [Bool.and_eq_true, decide_eq_true_eq]
            refine ⟨?_, htw, by omega⟩
            simp only [redirect_shape, decide_eq_true_eq]
            exact Or.inr h2
          constructor
          · intro hmsg
            rw [Except.error.injEq] at hmsg
            exact ⟨hlen2, hfo, hmsg.symm⟩
          · rintro ⟨-, -, he⟩
            rw [he]
    · by_cases h1 : (toks.getD (toks.length - 2) "").data.dropWhile Char.isDigit = ['>']
      · rw [h1, if_neg (by decide : ¬(['>'] = ['>', '>'])), if_pos rfl]
        dsimp only
        by_cases htw : (toks.getD (toks.length - 2) "").data.takeWhile Char.isDigit = []
        · rw [if_pos htw]
          dsimp only
          constructor
          · intro hcontra
            exact Except.noConfusion hcontra
          · rintro ⟨-, hfo, -⟩
            unfold fd_overflow at hfo
            rw [Bool.and_eq_true, decide_eq_true_eq] at hfo
            exact (hfo.2.1 htw).elim
        · rw [if_neg htw, parse_u32_takeWhile _ htw]
          by_cases hov : digitsToNat ((toks.getD (toks.length - 2) "").data.takeWhile Char.isDigit)
              < 4294967296
          · rw [if_pos hov]
            dsimp only
            constructor
            · intro hcontra
              exact Except.noConfusion hcontra
            · rintro ⟨-, hfo, -⟩
              unfold fd_overflow at hfo
              rw [Bool.and_eq_true, decide_eq_true_eq] at hfo
              omega
          · rw [if_neg hov]
            dsimp only
            have hfo : fd_overflow (toks.getD (toks.length - 2) "") = true := by
              unfold fd_overflow
              rw [Bool.and_eq_true, decide_eq_true_eq]
              refine ⟨?_, htw, by omega⟩
              simp only [redirect_shape, decide_eq_true_eq]
              exact Or.inl h1
            constructor
            · intro hmsg
              rw [Except.error.injEq] at hmsg
              exact ⟨hlen2, hfo, hmsg.symm⟩
            · rintro ⟨-, -, he⟩
              rw [he]
      · rw [if_neg h2, if_neg h1]
        dsimp only
        constructor
        · intro hcontra
          exact Except.noConfusion hcontra
        · rintro ⟨-, hfo, -⟩
          unfold fd_overflow at hfo
          rw [Bool.and_eq_true] at hfo
          have hsh := hfo.1
          simp only [redirect_shape, decide_eq_true_eq] at hsh
          rcases hsh with hh | hh
          · exact (h1 hh).elim
          · exact (h2 hh).elim

/-- C2 (amended): the character-scanning phase is total, and the whole
`tokenize` fails exactly when the second-to-last scanned token is a
non-empty clean digit run followed by the operator and the run's value
exceeds the u32 range, with the error string "invalid file descriptor: "
followed by that digit run; a prefix containing non-digit characters
never fails (the token is simply not treated as a redirect). -/
theorem tokenize_error_characterization :
    ∀ (input e : String),
      tokenize input = Except.error e ↔
        (2 ≤ (scan_tokens input).length ∧
          fd_overflow ((scan_tokens input).getD ((scan_tokens input).length - 2) "") = true ∧
          e = "invalid file descriptor: " ++
            String.mk (((scan_tokens input).getD
              ((scan_tokens input).length - 2) "").data.takeWhile Char.isDigit)) := by
  intro input e
  exact parse_redirect_error_iff (scan_tokens input) e

/-- C2 counterexample: on the line "echo a> f" the second-to-last token
"a>" has a malformed (non-digit) prefix in the claim's sense, yet
`tokenize` succeeds with no descriptor instead of failing with an
"invalid file descriptor" error. -/
theorem tokenize_malformed_fd_counterexample :
    claim_malformed_fd "a>" = true ∧
      tokenize "echo a> f" = Except.ok (["echo", "a>", "f"], none) := by
  constructor
  · decide
  · decide
/-! ## C3 -/

lemma plain_step_bs (s : ScanState) :
    plain_step s bsChar = { s with current_token := s.current_token.push bsChar } := by
  unfold plain_step
  rw [if_neg (by decide : ¬(bsChar = dqChar)), if_neg (by decide : ¬(bsChar = sqChar)),
    if_neg (by decide : ¬(rust_is_whitespace bsChar = true))]

/-- C3: escape handling in the scan loop: a backslash inside single
quotes is an ordinary literal character; outside any quotes a backslash
escapes the next character literally (the backslash is dropped); inside
double quotes a backslash escapes only the five characters of the
escape class and before any other character both the backslash and the
character are kept; a backslash that ends the input is appended
verbatim, never an error. -/
theorem escape_handling_semantics :
    ∀ (s : ScanState) (c : Char) (rest : List Char),
      (s.is_in_single_quotes = true →
        tokenize_run (bsChar :: rest) s =
          tokenize_run rest { s with current_token := s.current_token.push bsChar }) ∧
      (s.is_in_single_quotes = false → s.is_in_double_quotes = false →
        tokenize_run (bsChar :: c :: rest) s =
          tokenize_run rest { s with current_token := s.current_token.push c }) ∧
      (s.is_in_single_quotes = false → s.is_in_double_quotes = true →
        (c = dqChar ∨ c = '$' ∨ c = bsChar ∨ c = btChar ∨ c = nlChar) →
        tokenize_run (bsChar :: c :: rest) s =
          tokenize_run rest { s with current_token := s.current_token.push c }) ∧
      (s.is_in_single_quotes = false → s.is_in_double_quotes = true →
        ¬(c = dqChar ∨ c = '$' ∨ c = bsChar ∨ c = btChar ∨ c = nlChar) →
        tokenize_run (bsChar :: c :: rest) s =
          tokenize_run rest
            { s with current_token := (s.current_token.push bsChar).push c }) ∧
      (s.is_in_single_quotes = false →
        tokenize_run [bsChar] s = { s with current_token := s.current_token.push bsChar }) := by
  intro s c rest
  refine ⟨?_, ?_, ?_, ?_, ?_⟩
  · intro hsq
    conv_lhs => rw [tokenize_run.eq_def]
    dsimp only
    rw [if_neg (fun hc => by rw [hsq] at hc; exact Bool.noConfusion hc.2), plain_step_bs s]
  · intro hsq hdq
    have hhe : handle_escape_char s.current_token c s.is_in_double_quotes =
        s.current_token.push c := by
      rw [hdq]
      unfold handle_escape_char
      rw [if_neg (by decide : ¬((false : Bool) = true))]
    conv_lhs => rw [tokenize_run.eq_def]
    dsimp only
    rw [if_pos ⟨rfl, hsq⟩, hhe]
  · intro hsq hdq hc
    have hhe : handle_escape_char s.current_token c s.is_in_double_quotes =
        s.current_token.push c := by
      rw [hdq]
      unfold handle_escape_char
      rw [if_pos rfl, if_pos hc]
    conv_lhs => rw [tokenize_run.eq_def]
    dsimp only
    rw [if_pos ⟨rfl, hsq⟩, hhe]
  · intro hsq hdq hc
    have hhe : handle_escape_char s.current_token c s.is_in_double_quotes =
        (s.current_token.push bsChar).push c := by
      rw [hdq]
      unfold handle_escape_char
      rw [if_pos rfl, if_neg hc]
    conv_lhs => rw [tokenize_run.eq_def]
    dsimp only
    rw [if_pos ⟨rfl, hsq⟩, hhe]
  · intro hsq
    conv_lhs => rw [tokenize_run.eq_def]
    dsimp only
    rw [if_pos ⟨rfl, hsq⟩]

/-- C3 witness: the four escape behaviours at concrete states. -/
theorem escape_handling_semantics_witness :
    (tokenize_run [bsChar] (ScanState.mk true false "x" []) =
      tokenize_run [] { ScanState.mk true false "x" [] with
        current_token := (ScanState.mk true false "x" []).current_token.push bsChar }) ∧
    (tokenize_run [bsChar, 'q'] (ScanState.mk false false "x" []) =
      tokenize_run [] { ScanState.mk false false "x" [] with
        current_token := (ScanState.mk false false "x" []).current_token.push 'q' }) ∧
    (tokenize_run [bsChar, '$'] (ScanState.mk false true "x" []) =
      tokenize_run [] { ScanState.mk false true "x" [] with
        current_token := (ScanState.mk false true "x" []).current_token.push '$' }) ∧
    (tokenize_run [bsChar, 'q'] (ScanState.mk false true "x" []) =
      tokenize_run [] { ScanState.mk false true "x" [] with
        current_token := ((ScanState.mk false true "x" []).current_token.push bsChar).push 'q' }) ∧
    (tokenize_run [bsChar] (ScanState.mk false false "x" []) =
      { ScanState.mk false false "x" [] with
        current_token := (ScanState.mk false false "x" []).current_token.push bsChar }) :=
  ⟨(escape_handling_semantics (ScanState.mk true false "x" []) 'q' []).1 rfl,
   (escape_handling_semantics (ScanState.mk false false "x" []) 'q' []).2.1 rfl rfl,
   (escape_handling_semantics (ScanState.mk false true "x" []) '$' []).2.2.1 rfl rfl (by decide),
   (escape_handling_semantics (ScanState.mk false true "x" []) 'q' []).2.2.2.1 rfl rfl (by decide),
   (escape_handling_semantics (ScanState.mk false false "x" []) 'q' []).2.2.2.2 rfl⟩

/-! ## C4 -/

lemma plain_step_flags (s : ScanState) (ch : Char)
    (h : s.is_in_single_quotes = false ∨ s.is_in_double_quotes = false) :
    (plain_step s ch).is_in_single_quotes = false ∨
      (plain_step s ch).is_in_double_quotes = false := by
  unfold plain_step
  split_ifs <;> simp_all

lemma tokenize_trace_flags :
    ∀ (n : Nat) (l : List Char) (s : ScanState), l.length ≤ n →
      (s.is_in_single_quotes = false ∨ s.is_in_double_quotes = false) →
      ∀ st ∈ tokenize_trace l s,
        st.is_in_single_quotes = false ∨ st.is_in_double_quotes = false := by
  intro n
  induction n with
  | zero =>
    intro l s hl hs st hst
    have hnil : l = [] := List.length_eq_zero.mp (Nat.le_zero.mp hl)
    subst hnil
    simp only [show tokenize_trace [] s = [s] from rfl, List.mem_singleton] at hst
    subst hst
    exact hs
  | succ n ih =>
    intro l s hl hs st hst
    cases l with
    | nil =>
      simp only [show tokenize_trace [] s = [s] from rfl, List.mem_singleton] at hst
      subst hst
      exact hs
    | cons ch rest =>
      by_cases hc : ch = bsChar ∧ s.is_in_single_quotes = false
      · cases rest with
        | nil =>
          have heq : tokenize_trace (ch :: ([] : List Char)) s =
              [s, { s with current_token := s.current_token.push bsChar }] := by
            rw [tokenize_trace.eq_def]
            dsimp only
            rw [if_pos hc]
          rw [heq] at hst
          simp only [List.mem_cons, List.mem_singleton, List.not_mem_nil, or_false] at hst
          rcases hst with h | h <;> subst h
          · exact hs
          · simpa using hs
        | cons next rest2 =>
          have heq : tokenize_trace (ch :: next :: rest2) s =
              s :: tokenize_trace rest2
                { s with current_token :=
                    handle_escape_char s.current_token next s.is_in_double_quotes } := by
            rw [tokenize_trace.eq_def]
            dsimp only
            rw [if_pos hc]
          rw [heq, List.mem_cons] at hst
          rcases hst with h | h
          · subst h
            exact hs
          · refine ih rest2 _ ?_ (by simpa using hs) st h
            simp only [List.length_cons] at hl
            omega
      · have heq : tokenize_trace (ch :: rest) s =
            s :: tokenize_trace rest (plain_step s ch) := by
          rw [tokenize_trace.eq_def]
          dsimp only
          rw [if_neg hc]
        rw [heq, List.mem_cons] at hst
        rcases hst with h | h
        · subst h
          exact hs
        · refine ih rest _ ?_ (plain_step_flags s ch hs) st h
          simp only [List.length_cons] at hl
          omega

/-- C4: at every step of tokenizing any input line the two quote flags
are never both set, and a quote character of the inactive kind is
appended as a literal without toggling anything. -/
theorem quote_flags_mutually_exclusive :
    ∀ (input : String) (s : ScanState) (rest : List Char),
      (∀ st ∈ tokenize_trace input.data (ScanState.mk false false "" []),
        ¬(st.is_in_single_quotes = true ∧ st.is_in_double_quotes = true)) ∧
      (s.is_in_double_quotes = true →
        tokenize_run (sqChar :: rest) s =
          tokenize_run rest { s with current_token := s.current_token.push sqChar }) ∧
      (s.is_in_single_quotes = true →
        tokenize_run (dqChar :: rest) s =
          tokenize_run rest { s with current_token := s.current_token.push dqChar }) := by
  intro input s rest
  refine ⟨?_, ?_, ?_⟩
  · intro st hst
    have h := tokenize_trace_flags input.data.length input.data _ (Nat.le_refl _)
      (Or.inl rfl) st hst
    rcases h with h | h <;> simp [h]
  · intro hdq
    have hps : plain_step s sqChar =
        { s with current_token := s.current_token.push sqChar } := by
      unfold plain_step
      rw [if_neg (by decide : ¬(sqChar = dqChar)), if_pos rfl, if_pos hdq]
    conv_lhs => rw [tokenize_run.eq_def]
    dsimp only
    rw [if_neg (fun hc => absurd hc.1 (by decide : ¬(sqChar = bsChar))), hps]
  · intro hsq
    have hps : plain_step s dqChar =
        { s with current_token := s.current_token.push dqChar } := by
      unfold plain_step
      rw [if_pos rfl, if_pos hsq]
    conv_lhs => rw [tokenize_run.eq_def]
    dsimp only
    rw [if_neg (fun hc => absurd hc.1 (by decide : ¬(dqChar = bsChar))), hps]

/-- C4 witness: the invariant on the trace of a concrete line, and the
literal behaviour of an inactive-kind quote at a concrete state. -/
theorem quote_flags_mutually_exclusive_witness :
    ¬((ScanState.mk false false "" []).is_in_single_quotes = true ∧
        (ScanState.mk false false "" []).is_in_double_quotes = true) ∧
      (tokenize_run [sqChar] (ScanState.mk false true "x" []) =
        tokenize_run [] { ScanState.mk false true "x" [] with
          current_token := (ScanState.mk false true "x" []).current_token.push sqChar }) ∧
      (tokenize_run [dqChar] (ScanState.mk true false "x" []) =
        tokenize_run [] { ScanState.mk true false "x" [] with
          current_token := (ScanState.mk true false "x" []).current_token.push dqChar }) :=
  ⟨(quote_flags_mutually_exclusive "ab" (ScanState.mk false false "" []) []).1
      (ScanState.mk false false "" []) (by decide),
   (quote_flags_mutually_exclusive "ab" (ScanState.mk false true "x" []) []).2.1 rfl,
   (quote_flags_mutually_exclusive "ab" (ScanState.mk true false "x" []) []).2.2 rfl⟩

/-! ## C5 -/

lemma plain_eq_spec_step : plain_step = spec_quote_step := rfl

lemma tokenize_run_no_bs (l : List Char) :
    ∀ s : ScanState, (∀ c ∈ l, c ≠ bsChar) → tokenize_run l s = spec_quote_run l s := by
  induction l with
  | nil => intro s _; rfl
  | cons ch rest ih =>
    intro s h
    have hch : ch ≠ bsChar := h ch (List.mem_cons_self ch rest)
    have hrest : ∀ c ∈ rest, c ≠ bsChar := fun c hc => h c (List.mem_cons_of_mem ch hc)
    have heqL : tokenize_run (ch :: rest) s = tokenize_run rest (plain_step s ch) := by
      rw [tokenize_run.eq_def]
      dsimp only
      rw [if_neg (fun hc => hch hc.1)]
    have heqR : spec_quote_run (ch :: rest) s = spec_quote_run rest (spec_quote_step s ch) := rfl
    rw [heqL, heqR, ← plain_eq_spec_step]
    exact ih _ hrest

/-- C5 (amended): for every input line with balanced, non-nested quotes
that contains no backslash, joining the scanned tokens with single
spaces reconstructs the whitespace-normalized content with the quote
delimiters stripped; a backslash invalidates the reconstruction because
escape processing drops or adds characters the spec-side description
keeps verbatim. -/
theorem tokenize_join_reconstructs :
    ∀ (input : String),
      spec_balanced input = true →
      (∀ c ∈ input.data, c ≠ bsChar) →
      String.intercalate " " (scan_tokens input) = spec_normalized input := by
  intro input _ hnb
  unfold scan_tokens spec_normalized spec_words
  rw [tokenize_run_no_bs input.data _ hnb]

/-- C5 counterexample: the line a-backslash-space-b has balanced (in
fact absent) quotes, yet rejoining its tokens gives "a b" while the
whitespace-normalized quote-stripped content keeps the backslash. -/
theorem tokenize_join_counterexample :
    spec_balanced "a\\ b" = true ∧
      String.intercalate " " (scan_tokens "a\\ b") ≠ spec_normalized "a\\ b" := by
  constructor
  · decide
  · decide

/-- C5 witness: the amended theorem at a concrete quoted line. -/
theorem tokenize_join_reconstructs_witness :
    String.intercalate " " (scan_tokens "echo \"hello world\"") =
      spec_normalized "echo \"hello world\"" :=
  tokenize_join_reconstructs "echo \"hello world\"" (by decide) (by decide)

/-! ## C6 -/

/-- C6: the exit builtin: with no argument it signals termination with
status 0 and writes nothing; with a second token that does not parse as
an i32 it writes exactly "exit: <arg>: numeric argument required" plus a
newline to the diagnostic sink and signals continue; with a valid
integer second token it signals termination with that status. -/
theorem builtin_exit_contract :
    ∀ (arg : String) (rest : List String) (n : Int),
      (builtin_exit ["exit"] = (BuiltinFlow.Exit 0, "")) ∧
      (parse_i32 arg = none →
        builtin_exit ("exit" :: arg :: rest) =
          (BuiltinFlow.Continue, "exit: " ++ arg ++ ": numeric argument required" ++ "\n")) ∧
      (parse_i32 arg = some n →
        builtin_exit ("exit" :: arg :: rest) = (BuiltinFlow.Exit n, "")) := by
  intro arg rest n
  refine ⟨rfl, ?_, ?_⟩
  · intro h
    unfold builtin_exit
    dsimp only
    rw [h]
    rfl
  · intro h
    unfold builtin_exit
    dsimp only
    rw [h]

/-- C6 witness: the three cases at concrete token lists. -/
theorem builtin_exit_contract_witness :
    builtin_exit ["exit"] = (BuiltinFlow.Exit 0, "") ∧
      builtin_exit ["exit", "abc"] =
        (BuiltinFlow.Continue, "exit: " ++ "abc" ++ ": numeric argument required" ++ "\n") ∧
      builtin_exit ["exit", "3"] = (BuiltinFlow.Exit 3, "") :=
  ⟨(builtin_exit_contract "abc" [] 3).1,
   (builtin_exit_contract "abc" [] 3).2.1 (by decide),
   (builtin_exit_contract "3" [] 3).2.2 (by decide)⟩

/-! ## C7 -/

lemma dropWhile_char_head_ne (d : Char) (l : List Char) (h : l.head? ≠ some d) :
    l.dropWhile (fun c => c = d) = l := by
  cases l with
  | nil => rfl
  | cons a t =>
    have ha : a ≠ d := by
      intro hc
      exact h (by subst hc; rfl)
    rw [List.dropWhile_cons, if_neg (by simpa using ha)]

/-- C7 counterexample: on the argument "~~" the code expands BOTH
leading tildes (the result is exactly the home directory), so the
expansion is not limited to a single leading tilde: the result differs
both from "rewrite only the first tilde" and from "leave the argument
alone". -/
theorem cd_double_tilde_counterexample :
    cd_expand "~~" (some "/h") = "/h" ∧
      cd_expand "~~" (some "/h") ≠ "/h" ++ "~" ∧
      cd_expand "~~" (some "/h") ≠ "~~" := by
  refine ⟨by decide, by decide, by decide⟩

/-- C7 (amended): tilde expansion in cd strips every leading tilde (not
just one): "~" and "~~" alike become the home directory; "~/rest"
becomes home/rest (leading slashes of the remainder collapse); a
tilde-adjacent name is rewritten to home/name rather than looked up as a
user; arguments not starting with a tilde, and all arguments when HOME
is unset, are unchanged. -/
theorem cd_tilde_expansion :
    ∀ (h rest arg : String),
      (cd_expand "~" (some h) = h) ∧
      (cd_expand "~~" (some h) = h) ∧
      (rest.data.head? ≠ some '/' →
        cd_expand ("~/" ++ rest) (some h) = h ++ "/" ++ rest) ∧
      (rest ≠ "" → rest.data.head? ≠ some '~' → rest.data.head? ≠ some '/' →
        cd_expand ("~" ++ rest) (some h) = h ++ "/" ++ rest) ∧
      (arg.data.head? ≠ some '~' → cd_expand arg (some h) = arg) ∧
      (cd_expand arg none = arg) := by
  intro h rest arg
  refine ⟨rfl, rfl, ?_, ?_, ?_, ?_⟩
  · intro hr
    have hdata : ("~/" ++ rest).data = '~' :: '/' :: rest.data := by
      rw [String.data_append]
      rfl
    unfold cd_expand
    rw [hdata]
    have hh : ('~' :: '/' :: rest.data).head? = some '~' := rfl
    rw [if_pos hh]
    dsimp only
    have h1 : List.dropWhile (fun c => c = '~') ('~' :: '/' :: rest.data) =
        '/' :: rest.data := by
      rw [List.dropWhile_cons, if_pos (by simp), dropWhile_char_head_ne '~'
        ('/' :: rest.data) (by simp)]
    rw [h1]
    rw [if_neg (by simp)]
    have h2 : List.dropWhile (fun c => c = '/') ('/' :: rest.data) = rest.data := by
      rw [List.dropWhile_cons, if_pos (by simp), dropWhile_char_head_ne '/' rest.data hr]
    rw [h2]
  · intro hne hr1 hr2
    have hdata : ("~" ++ rest).data = '~' :: rest.data := by
      rw [String.data_append]
      rfl
    have hrd : rest.data ≠ [] := by
      intro hc
      exact hne (congrArg String.mk hc)
    unfold cd_expand
    rw [hdata]
    have hh : ('~' :: rest.data).head? = some '~' := rfl
    rw [if_pos hh]
    dsimp only
    have h1 : List.dropWhile (fun c => c = '~') ('~' :: rest.data) = rest.data := by
      rw [List.dropWhile_cons, if_pos (by simp), dropWhile_char_head_ne '~' rest.data hr1]
    rw [h1, if_neg hrd]
    rw [dropWhile_char_head_ne '/' rest.data hr2]
  · intro h5
    unfold cd_expand
    rw [if_neg h5]
  · unfold cd_expand
    split
    · rfl
    · rfl

/-- C7 witness: the amended behaviour at concrete arguments. -/
theorem cd_tilde_expansion_witness :
    cd_expand "~" (some "/home/user") = "/home/user" ∧
      cd_expand ("~/" ++ "docs") (some "/home/user") = "/home/user" ++ "/" ++ "docs" ∧
      cd_expand "file" (some "/home/user") = "file" :=
  ⟨(cd_tilde_expansion "/home/user" "docs" "file").1,
   (cd_tilde_expansion "/home/user" "docs" "file").2.2.1 (by decide),
   (cd_tilde_expansion "/home/user" "docs" "file").2.2.2.2.1 (by decide)⟩

/-! ## C8 -/

/-- C8: cd with exactly one argument naming a directory the chdir
collaborator rejects writes exactly "<original-arg>: No such file or
directory" plus a newline to the diagnostic sink (using the argument as
given, not its tilde expansion), leaves the working directory unchanged,
and signals continue. -/
theorem builtin_cd_missing_dir :
    ∀ (arg : String) (home : Option String) (dir_ok : String → Bool) (cwd : String),
      dir_ok (cd_expand arg home) = false →
      builtin_cd ["cd", arg] home dir_ok cwd =
        (BuiltinFlow.Continue, "" ++ (arg ++ ": No such file or directory") ++ "\n", cwd) := by
  intro arg home dir_ok cwd h
  unfold builtin_cd
  rw [if_neg (by simp)]
  have hgd : (["cd", arg] : List String).getD 1 "" = arg := rfl
  rw [hgd, if_neg (by simp [h])]
  rfl

/-- C8 witness: a world in which no directory exists. -/
theorem builtin_cd_missing_dir_witness :
    builtin_cd ["cd", "/no/such/dir"] none (fun _ => false) "/base" =
      (BuiltinFlow.Continue,
        "" ++ ("/no/such/dir" ++ ": No such file or directory") ++ "\n", "/base") :=
  builtin_cd_missing_dir "/no/such/dir" none (fun _ => false) "/base" rfl

/-! ## C9 -/

/-- C9: a dispatch cycle whose redirect descriptor targets a file
descriptor other than 1 or 2 reports the rejection to the terminal
diagnostic stream, opens no file, runs no command (builtin or external),
and the loop continues (the cycle does not terminate the process). -/
theorem dispatch_rejects_unsupported_fd :
    ∀ (w : ShellWorld) (parts : List String) (spec : Redirect),
      spec.fd ≠ 1 → spec.fd ≠ 2 →
      dispatch_cycle w parts (some spec) =
        CycleResult.mk ["redirect for fd " ++ toString spec.fd ++ " is not supported"]
          [] RanCommand.noCmd none none := by
  intro w parts spec h1 h2
  unfold dispatch_cycle
  dsimp only
  rw [if_neg h1, if_neg h2]

/-- C9 witness: a concrete world and a descriptor for fd 3. -/
theorem dispatch_rejects_unsupported_fd_witness :
    dispatch_cycle
        (ShellWorld.mk (fun _ _ => true) (fun _ => none) (fun _ _ => BuiltinFlow.Continue))
        ["echo", "hi"] (some (Redirect.mk 3 "out.txt" RedirectType.CREATE)) =
      CycleResult.mk
        ["redirect for fd " ++ toString (Redirect.mk 3 "out.txt" RedirectType.CREATE).fd ++
          " is not supported"]
        [] RanCommand.noCmd none none :=
  dispatch_rejects_unsupported_fd
    (ShellWorld.mk (fun _ _ => true) (fun _ => none) (fun _ _ => BuiltinFlow.Continue))
    ["echo", "hi"] (Redirect.mk 3 "out.txt" RedirectType.CREATE) (by decide) (by decide)

/-! ## C10 -/

/-- C10: redirect extraction inspects tokens only after quote and escape
removal: `tokenize` is exactly redirect extraction composed with the
character scan, and on the line echo hi quoted-operator out.txt the
quoted operator becomes the bare token ">" and is then extracted as a
CREATE redirect to out.txt instead of being passed through as an
argument. -/
theorem quoted_operator_still_redirect :
    scan_tokens quoted_redirect_line = ["echo", "hi", ">", "out.txt"] ∧
      tokenize quoted_redirect_line =
        Except.ok (["echo", "hi"], some (Redirect.mk 1 "out.txt" RedirectType.CREATE)) ∧
      ∀ input : String, tokenize input = parse_redirect (scan_tokens input) := by
  refine ⟨by decide, by decide, fun _ => rfl⟩
